import Mathlib

/-
Verification of the EIA API bulk-download client (pudl_scrapers/bin/eia_api.py):
a shallow embedding of the query builder, version guard, paginated fetcher,
streaming aggregator and archive finalizer, with theorems about the embedded
definitions.  The HTTP layer is modelled as a pure function from request
parameters to the parsed response; the filesystem as a partial map from paths
to byte lists.
-/

/-- Python str.split(".") as used in _check_api_version: split at every dot,
keeping empty fragments, so that the empty string splits to a single empty
fragment just as in Python. -/
def splitDotsAux : List Char → List Char → List String
  | [], acc => [String.mk acc.reverse]
  | c :: cs, acc =>
    if c = '.' then String.mk acc.reverse :: splitDotsAux cs []
    else splitDotsAux cs (c :: acc)

/-- Split a string at the dots, Python str.split(".") semantics. -/
def splitDots (s : String) : List String :=
  splitDotsAux s.data []

/-- Python exceptions the embedded code can raise. -/
inductive PyErr where
  | httpError
  | unboundLocalError
  | indexError
  | zeroDivisionError
  | fileNotFoundError
  | ioError
deriving DecidableEq, Repr

/-- Warnings emitted through warnings.warn in _check_api_version. -/
inductive Warning where
  | versionUnavailable
  | majorDrift
  | minorDrift
deriving DecidableEq, Repr

/-- Outcome severity of the version comparison in _check_api_version.  The
patch branch only logs (informational), the major and minor branches warn. -/
inductive Severity where
  | ok
  | majorDrift
  | minorDrift
  | patchDrift
deriving DecidableEq, Repr

/-- EIAAPI.API_VERSION, the expected version constant. -/
def API_VERSION : String := "2.0.2"

/-- Python list indexing xs[i]: raises IndexError when i is out of range. -/
def pyIndex (xs : List String) (i : Nat) : Except PyErr String :=
  match xs[i]? with
  | some x => Except.ok x
  | none => Except.error PyErr.indexError

/-- EIAAPI._check_api_version.  Input: the apiVersion field of the first
response JSON (none when the key is missing).  Output: the warnings emitted
and either the drift severity reached or the exception raised.  When the key
is missing, the except-KeyError branch warns and falls through, and the next
statement observed_api_version.split(".") raises UnboundLocalError because
the name was never bound.  Components are compared as strings with != exactly
as in the source. -/
def checkApiVersion (apiVersion : Option String) : List Warning × Except PyErr Severity :=
  match apiVersion with
  | none => ([Warning.versionUnavailable], Except.error PyErr.unboundLocalError)
  | some obs =>
    match pyIndex (splitDots API_VERSION) 0, pyIndex (splitDots obs) 0 with
    | Except.error e, _ => ([], Except.error e)
    | _, Except.error e => ([], Except.error e)
    | Except.ok e0, Except.ok o0 =>
      if e0 ≠ o0 then ([Warning.majorDrift], Except.ok Severity.majorDrift)
      else
        match pyIndex (splitDots API_VERSION) 1, pyIndex (splitDots obs) 1 with
        | Except.error e, _ => ([], Except.error e)
        | _, Except.error e => ([], Except.error e)
        | Except.ok e1, Except.ok o1 =>
          if e1 ≠ o1 then ([Warning.minorDrift], Except.ok Severity.minorDrift)
          else
            match pyIndex (splitDots API_VERSION) 2, pyIndex (splitDots obs) 2 with
            | Except.error e, _ => ([], Except.error e)
            | _, Except.error e => ([], Except.error e)
            | Except.ok e2, Except.ok o2 =>
              if e2 ≠ o2 then ([], Except.ok Severity.patchDrift)
              else ([], Except.ok Severity.ok)

/-- The request parameters the pagination code reads and writes:
param_dict["length"] and param_dict["offset"].  The remaining query options
never change during pagination and do not affect it; their construction is
modelled separately (paramEntries below). -/
structure Params where
  offset : Int
  length : Int
deriving DecidableEq, Repr

/-- One parsed HTTP response with the fields _get_all_values consumes: the
status code, the raw body text, response.total and apiVersion from the parsed
JSON body. -/
structure Response where
  status : Nat
  text : String
  total : Int
  apiVersion : Option String

/-- requests.Response.raise_for_status: raises HTTPError exactly for status
codes in [400, 600). -/
def raiseForStatus (r : Response) : Except PyErr Unit :=
  if 400 ≤ r.status ∧ r.status < 600 then Except.error PyErr.httpError
  else Except.ok ()

/-- Trace of one _get_all_values run: the first request and its body, the
later (params, body) pairs produced by the loop in order, the warnings of the
version check, and the computed n_requests. -/
structure Trace where
  firstParams : Params
  firstText : String
  later : List (Params × String)
  warnings : List Warning
  nRequests : Int
deriving DecidableEq, Repr

/-- All request parameter sets issued by the fetch, in order. -/
def Trace.requests (t : Trace) : List Params :=
  t.firstParams :: t.later.map Prod.fst

/-- All page bodies written by the fetch, in order. -/
def Trace.pages (t : Trace) : List String :=
  t.firstText :: t.later.map Prod.snd

/-- The loop over range(1, n_requests) in _get_all_values: iteration k (for
i = k + 1) sets new_params to param_dict with only the offset replaced by
param_dict["length"] * i, issues the request, and records the raw response
text.  No status check is performed on these responses. -/
def pageLoop (server : Params → Response) (base : Params) (n : Nat) : List (Params × String) :=
  (List.range n).map fun (k : Nat) =>
    let newParams : Params := { base with offset := base.length * ((k : Int) + 1) }
    (newParams, (server newParams).text)

/-- EIAAPI._get_all_values.  Faithful points: raise_for_status is called on
the first response only; the version check runs before the total is read and
can itself raise; n_requests = -(-total // length) with Python floor division
(Int.fdiv), raising ZeroDivisionError when length is 0; the loop writes the
later bodies with no status check.  Every raising statement precedes the
first page write, so on an exception nothing has been written yet. -/
def getAllValues (server : Params → Response) (params : Params) : Except PyErr Trace :=
  match raiseForStatus (server params) with
  | Except.error e => Except.error e
  | Except.ok _ =>
    match checkApiVersion (server params).apiVersion with
    | (_, Except.error e) => Except.error e
    | (ws, Except.ok _) =>
      if params.length = 0 then Except.error PyErr.zeroDivisionError
      else
        Except.ok { firstParams := params
                  , firstText := (server params).text
                  , later := pageLoop server params
                      (-((-(server params).total).fdiv params.length) - 1).toNat
                  , warnings := ws
                  , nRequests := -((-(server params).total).fdiv params.length) }

/-- The writes performed by the pagination loop: each later page body is
preceded by a comma and a newline. -/
def loopWrites : List String → String
  | [] => ""
  | t :: ts => ",\n" ++ t ++ loopWrites ts

/-- Observable outcome of one get_fuel_receipts_costs_aggregates call: the
bytes written to the output file, whether the closing bracket was written,
whether gzip_file ran, and the exception if one escaped. -/
structure AggOutcome where
  fileContent : String
  arrayClosed : Bool
  gzipRan : Bool
  error : Option PyErr
deriving DecidableEq, Repr

/-- EIAAPI.get_fuel_receipts_costs_aggregates from the file open onward:
write the opening bracket, run _get_all_values against the open file, write
the closing bracket, then gzip_file(out_path, delete_uncompressed=True).
When _get_all_values raises the file holds only the opening bracket (all
raising statements precede the first page write), the closing bracket is
never written and gzip_file never runs. -/
def get_fuel_receipts_costs_aggregates (server : Params → Response) (params : Params) : AggOutcome :=
  match getAllValues server params with
  | Except.error e =>
      { fileContent := "[", arrayClosed := false, gzipRan := false, error := some e }
  | Except.ok t =>
      { fileContent := "[" ++ t.firstText ++ loopWrites (t.later.map Prod.snd) ++ "]"
      , arrayClosed := true
      , gzipRan := true
      , error := none }

/-- A Python value that can appear in the option dictionary built by
get_fuel_receipts_costs_aggregates: None, a string, an int, the data list of
field names, the facets dict and the sort list.  These are exactly the types
of the named options in the source signature. -/
inductive PyVal where
  | pynone
  | pystr (s : String)
  | pyint (i : Int)
  | pylist (xs : List String)
  | pyfacets (m : List (String × List String))
  | pysort (xs : List (String × String))
deriving DecidableEq, Repr

/-- Python bool(v) for the values above: None is falsy, a string is truthy
iff nonempty, an int iff nonzero, a list or dict iff nonempty. -/
def PyVal.truthy : PyVal → Bool
  | .pynone => false
  | .pystr s => s ≠ ""
  | .pyint i => i ≠ 0
  | .pylist xs => !xs.isEmpty
  | .pyfacets m => !m.isEmpty
  | .pysort xs => !xs.isEmpty

/-- Python v == 0 for the values above: among None, str, int, list and dict
only the int 0 compares equal to 0 (no bool or float options exist in the
signature). -/
def PyVal.eqZero : PyVal → Bool
  | .pyint i => i = 0
  | _ => false

/-- The named options of get_fuel_receipts_costs_aggregates with their
default values from the source signature. -/
structure QueryOptions where
  frequency : String := "annual"
  data : Option (List String) := some ["cost-per-btu", "receipts-btu"]
  start : Option String := some "2001"
  «end» : Option String := none
  offset : Int := 0
  length : Int := 5000
  facets : Option (List (String × List String)) := none
  sort : Option (List (String × String)) := none

/-- An optional string option as the Python value it holds. -/
def optToPy : Option String → PyVal
  | none => PyVal.pynone
  | some s => PyVal.pystr s

/-- The local variables inspected by the dict comprehension in
get_fuel_receipts_costs_aggregates, minus the excluded ones (self, out_path,
exclude_locals).  data has already been rebound by
  data = list(data) if data else []
so None and the empty list both become the empty list. -/
def paramEntries (o : QueryOptions) : List (String × PyVal) :=
  [("frequency", PyVal.pystr o.frequency),
   ("data", PyVal.pylist (o.data.getD [])),
   ("start", optToPy o.start),
   ("end", optToPy o.«end»),
   ("offset", PyVal.pyint o.offset),
   ("length", PyVal.pyint o.length),
   ("facets", match o.facets with
              | none => PyVal.pynone
              | some m => PyVal.pyfacets m),
   ("sort", match o.sort with
            | none => PyVal.pynone
            | some xs => PyVal.pysort xs)]

/-- The dict comprehension
  param_dict = \x7bk: v for k, v in locals().items()
               if ((bool(v) or v == 0) and k not in exclude_locals)\x7d
over the entries above. -/
def buildParamDict (o : QueryOptions) : List (String × PyVal) :=
  (paramEntries o).filter fun kv => kv.2.truthy || kv.2.eqZero

/-- A filesystem: a partial map from paths to byte lists. -/
def FileSys : Type := String → Option (List Nat)

/-- Write a file. -/
def FileSys.write (fs : FileSys) (p : String) (bs : List Nat) : FileSys :=
  fun q => if q = p then some bs else fs q

/-- Path.unlink: remove a file. -/
def FileSys.remove (fs : FileSys) (p : String) : FileSys :=
  fun q => if q = p then none else fs q

/-- Modelled from the spec: the gzip codec itself is Python standard library
code, not part of this repository; only its losslessness matters to the
claims, so the compressed stream is modelled as a run-length code flattened
to (count, byte) pairs. -/
def gzCompress : List Nat → List (Nat × Nat)
  | [] => []
  | b :: rest =>
    match gzCompress rest with
    | [] => [(1, b)]
    | (n, b') :: tail =>
      if b' = b then (n + 1, b) :: tail
      else (1, b) :: (n, b') :: tail

/-- Flatten the run-length pairs into the compressed byte stream. -/
def gzFlatten : List (Nat × Nat) → List Nat
  | [] => []
  | (n, b) :: tail => n :: b :: gzFlatten tail

/-- The compressed bytes written for a source byte list. -/
def gzCompressBytes (bs : List Nat) : List Nat :=
  gzFlatten (gzCompress bs)

/-- Decode a run-length pair stream. -/
def gzDecodePairs : List (Nat × Nat) → List Nat
  | [] => []
  | (n, b) :: tail => List.replicate n b ++ gzDecodePairs tail

/-- Decompress a flattened run-length stream. -/
def gzDecompressBytes : List Nat → List Nat
  | n :: b :: tail => List.replicate n b ++ gzDecompressBytes tail
  | _ => []

/-- gzip_file(filepath, delete_uncompressed).  The sibling output path is
filepath.with_suffix(filepath.suffix + ".gz"), which strips the final suffix
and appends it back with ".gz", i.e. appends ".gz" to the name.  The
streaming copy is modelled byte-wise; ioFailAt injects an I/O failure after
k bytes have been copied, in which case the partially written sibling holds
the compression of the copied prefix and, crucially, the unlink statement is
never reached because it textually follows the with-blocks.  The unlink runs
only when the copy has completed and delete_uncompressed is set.  On an
exception the error value carries the filesystem at the moment of failure. -/
def gzip_file (fs : FileSys) (filepath : String) (delete_uncompressed : Bool)
    (ioFailAt : Option Nat) : Except (PyErr × FileSys) FileSys :=
  match fs filepath with
  | none => Except.error (PyErr.fileNotFoundError, fs)
  | some data =>
    match ioFailAt with
    | some k =>
      if k < data.length then
        Except.error (PyErr.ioError,
          fs.write (filepath ++ ".gz") (gzCompressBytes (data.take k)))
      else
        let fs1 := fs.write (filepath ++ ".gz") (gzCompressBytes data)
        Except.ok (if delete_uncompressed then fs1.remove filepath else fs1)
    | none =>
      let fs1 := fs.write (filepath ++ ".gz") (gzCompressBytes data)
      Except.ok (if delete_uncompressed then fs1.remove filepath else fs1)

/-- A string made only of JSON whitespace characters. -/
def JsonWS (ws : String) : Prop :=
  ∀ c ∈ ws.data, c = ' ' ∨ c = '\n' ∨ c = '\t' ∨ c = '\r'

mutual

/-- Modelled from the spec: the text of a JSON value, as a sound subset of
the JSON grammar (strings without escapes, unsigned integer literals); every
string accepted here is syntactically valid JSON.  Array elements may be
separated by a comma followed by whitespace, as JSON permits. -/
inductive IsJsonValue : String → Prop
  | null : IsJsonValue "null"
  | tru : IsJsonValue "true"
  | fls : IsJsonValue "false"
  | num (digits : String) (hne : digits ≠ "")
      (hd : ∀ c ∈ digits.data, c.isDigit) : IsJsonValue digits
  | str (s : String) (h : ∀ c ∈ s.data, c ≠ '"' ∧ c ≠ '\\') :
      IsJsonValue ("\"" ++ s ++ "\"")
  | arr (body : String) (n : Nat) (h : IsJsonElems body n) :
      IsJsonValue ("[" ++ body ++ "]")
  | obj (body : String) (h : IsJsonMembers body) :
      IsJsonValue ("\x7b" ++ body ++ "\x7d")

/-- The body of a JSON array with exactly n elements. -/
inductive IsJsonElems : String → Nat → Prop
  | nil : IsJsonElems "" 0
  | single (s : String) (h : IsJsonValue s) : IsJsonElems s 1
  | cons (s ws rest : String) (n : Nat) (h : IsJsonValue s) (hws : JsonWS ws)
      (hr : IsJsonElems rest n) (hn : 1 ≤ n) :
      IsJsonElems (s ++ "," ++ ws ++ rest) (n + 1)

/-- The body of a JSON object: zero or more key-value members. -/
inductive IsJsonMembers : String → Prop
  | nil : IsJsonMembers ""
  | single (k v : String) (hk : ∀ c ∈ k.data, c ≠ '"' ∧ c ≠ '\\')
      (hv : IsJsonValue v) : IsJsonMembers ("\"" ++ k ++ "\":" ++ v)
  | cons (k v ws rest : String) (hk : ∀ c ∈ k.data, c ≠ '"' ∧ c ≠ '\\')
      (hv : IsJsonValue v) (hws : JsonWS ws) (hr : IsJsonMembers rest)
      (hne : rest ≠ "") :
      IsJsonMembers ("\"" ++ k ++ "\":" ++ v ++ "," ++ ws ++ rest)

end

/-- The text of a JSON object, as produced for each page by the API. -/
def IsJsonObjectText (s : String) : Prop :=
  ∃ body, IsJsonMembers body ∧ s = "\x7b" ++ body ++ "\x7d"

/-- The text of a JSON array with exactly n elements. -/
def IsJsonArrayText (s : String) (n : Nat) : Prop :=
  ∃ body, IsJsonElems body n ∧ s = "[" ++ body ++ "]"

/-- The server used to refute C2: the probe request (offset 0) succeeds and
reports total 6; the follow-up page request at offset 3 returns HTTP 500
with an error body. -/
def c2Server : Params → Response := fun p =>
  if p.offset = 0 then ⟨200, "PAGE0", 6, some "2.0.2"⟩
  else ⟨500, "ERRBODY", 6, some "2.0.2"⟩

/-- The server used to refute C3: every request succeeds with body B and
total 10. -/
def c3Server : Params → Response := fun _ => ⟨200, "B", 10, some "2.0.2"⟩

/-- The server used to refute the element-count part of C4: the probe
response is an empty JSON object with total 0. -/
def c4Server : Params → Response := fun _ => ⟨200, "\x7b\x7d", 0, some "2.0.2"⟩

/-- The server used in the C4 witness: every page is an empty JSON object,
total 8, page length 5, so two pages are fetched. -/
def c4wServer : Params → Response := fun _ => ⟨200, "\x7b\x7d", 8, some "2.0.2"⟩

/-- The trace of the C4 witness fetch. -/
def c4wTrace : Trace :=
  { firstParams := ⟨0, 5⟩, firstText := "\x7b\x7d"
  , later := [(⟨5, 5⟩, "\x7b\x7d")], warnings := [], nRequests := 2 }

/-- The filesystem of the C8 witness: one uncompressed output file. -/
def c8fs : FileSys := fun q => if q = "out.json" then some [1, 2, 2, 3] else none

/-- The filesystem of the C9 witness. -/
def c9fs : FileSys := fun q => if q = "data.json" then some [5, 5, 7] else none

/-- The expected version constant splits into its three components. -/
theorem splitDots_API_VERSION : splitDots API_VERSION = ["2", "0", "2"] := rfl

/-- C5: for every pair of three-part dot-separated version strings, the
version check classifies drift by the first differing component compared
left to right: a differing major component yields the major drift warning,
else a differing minor component yields the minor drift warning, else a
differing patch component is informational only (no warning), else the check
is silent.  The expected version is the constant 2.0.2, so the concrete
examples of the spec are instances. -/
theorem C5_version_classification (obs a b c : String)
    (hsplit : splitDots obs = [a, b, c]) :
    checkApiVersion (some obs) =
      (if a ≠ "2" then ([Warning.majorDrift], Except.ok Severity.majorDrift)
       else if b ≠ "0" then ([Warning.minorDrift], Except.ok Severity.minorDrift)
       else if c ≠ "2" then ([], Except.ok Severity.patchDrift)
       else ([], Except.ok Severity.ok)) := by
  show (match pyIndex (splitDots API_VERSION) 0, pyIndex (splitDots obs) 0 with
    | Except.error e, _ => ([], Except.error e)
    | _, Except.error e => ([], Except.error e)
    | Except.ok e0, Except.ok o0 =>
      if e0 ≠ o0 then ([Warning.majorDrift], Except.ok Severity.majorDrift)
      else
        match pyIndex (splitDots API_VERSION) 1, pyIndex (splitDots obs) 1 with
        | Except.error e, _ => ([], Except.error e)
        | _, Except.error e => ([], Except.error e)
        | Except.ok e1, Except.ok o1 =>
          if e1 ≠ o1 then ([Warning.minorDrift], Except.ok Severity.minorDrift)
          else
            match pyIndex (splitDots API_VERSION) 2, pyIndex (splitDots obs) 2 with
            | Except.error e, _ => ([], Except.error e)
            | _, Except.error e => ([], Except.error e)
            | Except.ok e2, Except.ok o2 =>
              if e2 ≠ o2 then ([], Except.ok Severity.patchDrift)
              else ([], Except.ok Severity.ok)) = _
  rw [hsplit, splitDots_API_VERSION]
  simp only [pyIndex, List.getElem?_cons_zero, List.getElem?_cons_succ]
  by_cases ha : a = "2" <;> by_cases hb : b = "0" <;> by_cases hc : c = "2" <;>
    simp [ha, hb, hc, Ne, eq_comm]

/-- C5 witness: the minor-drift example of the spec, check observed 2.1.2
against expected 2.0.2. -/
theorem C5_version_classification_witness :
    splitDots "2.1.2" = ["2", "1", "2"] ∧
    checkApiVersion (some "2.1.2") =
      ([Warning.minorDrift], Except.ok Severity.minorDrift) := by
  refine ⟨by decide, ?_⟩
  have h := C5_version_classification "2.1.2" "2" "1" "2" (by decide)
  simpa using h

/-- C6 (code bug): when the first-page payload has no apiVersion key the
except-KeyError branch emits the version-unavailable warning, but the code
then falls through to observed_api_version.split(".") with the name unbound,
raising UnboundLocalError: the fetch aborts instead of continuing past the
check as the spec states. -/
theorem C6_missing_version_crashes :
    checkApiVersion none =
      ([Warning.versionUnavailable], Except.error PyErr.unboundLocalError) := rfl

/-- C10: an observed version string with fewer than three dot-separated
components whose present components match the expected version makes the
check raise IndexError instead of returning any severity: 2.0 against the
expected 2.0.2 reaches observed_parts[2], which is out of range. -/
theorem C10_short_version_index_error :
    checkApiVersion (some "2.0") = ([], Except.error PyErr.indexError) := rfl

/-- A response with a success status passes raise_for_status. -/
theorem raiseForStatus_ok (r : Response) (h : r.status < 400) :
    raiseForStatus r = Except.ok () := by
  unfold raiseForStatus
  rw [if_neg]
  omega

/-- A response with a client- or server-error status raises HTTPError. -/
theorem raiseForStatus_error (r : Response) (h1 : 400 ≤ r.status)
    (h2 : r.status < 600) : raiseForStatus r = Except.error PyErr.httpError := by
  unfold raiseForStatus
  rw [if_pos ⟨h1, h2⟩]

/-- Evaluation of _get_all_values on the success path: first status is a
success, the version check does not raise, and the page length is nonzero. -/
theorem getAllValues_ok (server : Params → Response) (params : Params)
    (hstatus : (server params).status < 400)
    (w : List Warning) (sev : Severity)
    (hver : checkApiVersion (server params).apiVersion = (w, Except.ok sev))
    (hlen : params.length ≠ 0) :
    getAllValues server params = Except.ok
      { firstParams := params
      , firstText := (server params).text
      , later := pageLoop server params
          (-((-(server params).total).fdiv params.length) - 1).toNat
      , warnings := w
      , nRequests := -((-(server params).total).fdiv params.length) } := by
  unfold getAllValues
  rw [raiseForStatus_ok _ hstatus, hver]
  simp [hlen]

/-- The loop over range(1, n_requests) issues exactly n requests. -/
theorem pageLoop_length (server : Params → Response) (base : Params) (n : Nat) :
    (pageLoop server base n).length = n := by
  unfold pageLoop
  rw [List.length_map, List.length_range]

/-- For a positive total and a positive page length, n = -(-T // L) computed
with floor division is at least 1 and is the ceiling of T / L: it is the
least n with T ≤ L * n. -/
theorem ceil_formula_bounds (T L : Int) (hL : 0 < L) (hT : 1 ≤ T) :
    1 ≤ -((-T).fdiv L) ∧ T ≤ L * -((-T).fdiv L) ∧
      L * (-((-T).fdiv L) - 1) < T := by
  rw [Int.fdiv_eq_ediv _ hL.le]
  have hmod : L * (-T / L) + -T % L = -T := Int.ediv_add_emod (-T) L
  have hr0 : 0 ≤ -T % L := Int.emod_nonneg _ hL.ne'
  have hrL : -T % L < L := Int.emod_lt_of_pos _ hL
  have hq1 : L * (-T / L) ≤ -1 := by linarith
  have hqneg : -T / L ≤ -1 := by
    by_contra hcon
    push_neg at hcon
    have h0 : 0 ≤ -T / L := by omega
    have := mul_nonneg hL.le h0
    linarith
  refine ⟨by omega, ?_, ?_⟩
  · have hmn : L * -(-T / L) = -(L * (-T / L)) := mul_neg L _
    linarith
  · have hms : L * (-(-T / L) - 1) = -(L * (-T / L)) - L := by ring
    linarith

/-- C1: with pageLength in [1, serverMax] and a successful, version-checked
first response, the number of page requests issued and of page bodies
written both equal ceil(total / pageLength), computed as -(-total //
pageLength), whenever total is at least 1 (the count is the least n with
total <= pageLength * n); and when total = 0 the computed n_requests is 0
yet exactly one page, the initial probe page, is still requested, emitted
and written. -/
theorem C1_page_count (server : Params → Response) (params : Params)
    (hlen : 1 ≤ params.length) (hmax : params.length ≤ 5000)
    (hstatus : (server params).status < 400)
    (w : List Warning) (sev : Severity)
    (hver : checkApiVersion (server params).apiVersion = (w, Except.ok sev)) :
    ∃ t : Trace, getAllValues server params = Except.ok t ∧
      t.requests.length = t.pages.length ∧
      (1 ≤ (server params).total →
        ((t.pages.length : Int) = -((-(server params).total).fdiv params.length) ∧
         (server params).total ≤ params.length * (t.pages.length : Int) ∧
         params.length * ((t.pages.length : Int) - 1) < (server params).total)) ∧
      ((server params).total = 0 → t.nRequests = 0 ∧ t.pages.length = 1) := by
  refine ⟨_, getAllValues_ok server params hstatus w sev hver (by omega),
    ?_, ?_, ?_⟩ <;>
    simp only [Trace.requests, Trace.pages, List.length_cons,
      List.length_map, pageLoop_length]
  · intro hT
    obtain ⟨h1, h2, h3⟩ :=
      ceil_formula_bounds (server params).total params.length (by omega) hT
    have hcast : (((-((-(server params).total).fdiv params.length) - 1).toNat
        + 1 : Nat) : Int) = -((-(server params).total).fdiv params.length) := by
      omega
    rw [hcast]
    exact ⟨rfl, h2, h3⟩
  · intro hT
    rw [hT]
    constructor
    · simp
    · simp

/-- C1 witness: a concrete fetch with total 7 and page length 3 issues and
writes ceil(7/3) = 3 pages. -/
theorem C1_page_count_witness :
    ∃ t : Trace,
      getAllValues (fun _ => ⟨200, "P", 7, some "2.0.2"⟩) ⟨0, 3⟩ = Except.ok t ∧
      t.requests.length = t.pages.length ∧
      (1 ≤ ((fun (_ : Params) => (⟨200, "P", 7, some "2.0.2"⟩ : Response)) ⟨0, 3⟩).total →
        ((t.pages.length : Int) =
          -((-((fun (_ : Params) => (⟨200, "P", 7, some "2.0.2"⟩ : Response)) ⟨0, 3⟩).total).fdiv
            (⟨0, 3⟩ : Params).length) ∧
         ((fun (_ : Params) => (⟨200, "P", 7, some "2.0.2"⟩ : Response)) ⟨0, 3⟩).total ≤
           (⟨0, 3⟩ : Params).length * (t.pages.length : Int) ∧
         (⟨0, 3⟩ : Params).length * ((t.pages.length : Int) - 1) <
           ((fun (_ : Params) => (⟨200, "P", 7, some "2.0.2"⟩ : Response)) ⟨0, 3⟩).total)) ∧
      (((fun (_ : Params) => (⟨200, "P", 7, some "2.0.2"⟩ : Response)) ⟨0, 3⟩).total = 0 →
        t.nRequests = 0 ∧ t.pages.length = 1) :=
  C1_page_count (fun _ => ⟨200, "P", 7, some "2.0.2"⟩) ⟨0, 3⟩
    (by decide) (by decide) (by decide) [] Severity.ok rfl

/-- Inversion of a successful _get_all_values run: only the final branch
returns a trace, so the page length was nonzero and the trace is exactly the
one built there. -/
theorem getAllValues_ok_inv (server : Params → Response) (params : Params)
    (t : Trace) (h : getAllValues server params = Except.ok t) :
    params.length ≠ 0 ∧ ∃ ws : List Warning,
      t = { firstParams := params
          , firstText := (server params).text
          , later := pageLoop server params
              (-((-(server params).total).fdiv params.length) - 1).toNat
          , warnings := ws
          , nRequests := -((-(server params).total).fdiv params.length) } := by
  unfold getAllValues at h
  cases hrs : raiseForStatus (server params) with
  | error e => rw [hrs] at h; simp at h
  | ok u =>
    rw [hrs] at h
    cases hcv : checkApiVersion (server params).apiVersion with
    | mk ws r =>
      rw [hcv] at h
      cases r with
      | error e => simp at h
      | ok sev =>
        replace h : (if params.length = 0 then
            (Except.error PyErr.zeroDivisionError : Except PyErr Trace)
          else Except.ok
            { firstParams := params
            , firstText := (server params).text
            , later := pageLoop server params
                (-((-(server params).total).fdiv params.length) - 1).toNat
            , warnings := ws
            , nRequests := -((-(server params).total).fdiv params.length) })
            = Except.ok t := h
        by_cases hl : params.length = 0
        · rw [if_pos hl] at h
          simp at h
        · rw [if_neg hl] at h
          simp only [Except.ok.injEq] at h
          exact ⟨hl, ws, h.symm⟩

/-- C2 counterexample: the second page request of this fetch returns status
500, yet the fetch does not raise: the error body is written into the
aggregate, the array is closed and the compression step still runs, because
raise_for_status is only ever called on the first response. -/
theorem C2_counterexample :
    (c2Server { offset := 3, length := 3 }).status = 500 ∧
    get_fuel_receipts_costs_aggregates c2Server { offset := 0, length := 3 } =
      { fileContent := "[PAGE0,\nERRBODY]", arrayClosed := true,
        gzipRan := true, error := none } :=
  ⟨rfl, rfl⟩

/-- C2 amended: a non-success status on the FIRST page request raises
HttpError immediately and aborts the fetch with no page body written and no
compression step; responses to subsequent page requests are not status
checked at all, and their raw bodies are written into the aggregate
regardless of status. -/
theorem C2_amended :
    (∀ (server : Params → Response) (params : Params),
      400 ≤ (server params).status → (server params).status < 600 →
      get_fuel_receipts_costs_aggregates server params =
        { fileContent := "[", arrayClosed := false, gzipRan := false,
          error := some PyErr.httpError }) ∧
    (∀ (server : Params → Response) (params : Params) (t : Trace),
      getAllValues server params = Except.ok t →
      ∀ pr ∈ t.later, pr.2 = (server pr.1).text) := by
  constructor
  · intro server params h1 h2
    unfold get_fuel_receipts_costs_aggregates getAllValues
    rw [raiseForStatus_error _ h1 h2]
  · intro server params t h pr hmem
    obtain ⟨-, ws, rfl⟩ := getAllValues_ok_inv server params t h
    unfold pageLoop at hmem
    simp only [List.mem_map, List.mem_range] at hmem
    obtain ⟨k, -, rfl⟩ := hmem
    rfl

/-- C2 witness: the abort branch at a concrete all-500 server, and the
written-regardless branch at the concrete counterexample fetch. -/
theorem C2_amended_witness :
    get_fuel_receipts_costs_aggregates
        (fun _ => ⟨500, "E", 4, some "2.0.2"⟩) ⟨0, 2⟩ =
      { fileContent := "[", arrayClosed := false, gzipRan := false,
        error := some PyErr.httpError } ∧
    ((⟨3, 3⟩, "ERRBODY") : Params × String).2 = (c2Server ⟨3, 3⟩).text :=
  ⟨C2_amended.1 (fun _ => ⟨500, "E", 4, some "2.0.2"⟩) ⟨0, 2⟩ (by decide) (by decide),
   C2_amended.2 c2Server ⟨0, 3⟩
     { firstParams := ⟨0, 3⟩, firstText := "PAGE0"
     , later := [(⟨3, 3⟩, "ERRBODY")], warnings := [], nRequests := 2 }
     rfl (⟨3, 3⟩, "ERRBODY") (by simp)⟩

/-- Index view of the pagination loop: position k holds the request with
offset length * (k + 1) and its response body. -/
theorem pageLoop_getElem (server : Params → Response) (base : Params) (n k : Nat) :
    (pageLoop server base n)[k]? =
      if k < n then
        some ({ base with offset := base.length * ((k : Int) + 1) },
          (server { base with offset := base.length * ((k : Int) + 1) }).text)
      else none := by
  unfold pageLoop
  rcases Nat.lt_or_ge k n with hk | hk
  · rw [if_pos hk, List.getElem?_map, List.getElem?_range hk]
    rfl
  · rw [if_neg (by omega), List.getElem?_map,
      List.getElem?_eq_none (by rw [List.length_range]; exact hk)]
    rfl

/-- C3 counterexample: with a nonzero initial offset (7, page length 5) the
fetch succeeds with two pages, whose request offsets are 7 then 5: page 0
carries the spec offset 7, not 0 * 5 = 0, and the offsets are not strictly
increasing either (7 is not less than 5), so the unconditional claim fails
on both counts. -/
theorem C3_counterexample :
    getAllValues c3Server { offset := 7, length := 5 } = Except.ok
      { firstParams := ⟨7, 5⟩, firstText := "B"
      , later := [(⟨5, 5⟩, "B")], warnings := [], nRequests := 2 } ∧
    (Trace.requests
      { firstParams := ⟨7, 5⟩, firstText := "B"
      , later := [(⟨5, 5⟩, "B")], warnings := [], nRequests := 2 }).map
        Params.offset = [7, 5] ∧
    ¬ ((7 : Int) = 0 * 5) ∧ ¬ ((7 : Int) < 5) :=
  ⟨rfl, rfl, by decide, by decide⟩

/-- C3 amended: page 0 is requested with the spec offset as given, and page
k for k at least 1 is requested with offset pageLength * k; hence when the
initial spec offset is 0 (the default) every page k is requested with offset
k * pageLength and, for positive pageLength, the offsets are strictly
increasing in emission order. -/
theorem C3_amended (server : Params → Response) (params : Params) (t : Trace)
    (h : getAllValues server params = Except.ok t) :
    t.requests[0]? = some params ∧
    (∀ (k : Nat) (p : Params), t.requests[k + 1]? = some p →
      p.offset = params.length * ((k : Int) + 1)) ∧
    (params.offset = 0 → ∀ (k : Nat) (p : Params), t.requests[k]? = some p →
      p.offset = params.length * (k : Int)) ∧
    (params.offset = 0 → 1 ≤ params.length →
      ∀ (j k : Nat) (pj pk : Params), j < k →
        t.requests[j]? = some pj → t.requests[k]? = some pk →
        pj.offset < pk.offset) := by
  obtain ⟨-, ws, rfl⟩ := getAllValues_ok_inv server params t h
  have hsucc : ∀ (k : Nat) (p : Params),
      (params :: (pageLoop server params
          (-((-(server params).total).fdiv params.length) - 1).toNat).map
            Prod.fst)[k + 1]? = some p →
        p.offset = params.length * ((k : Int) + 1) := by
    intro k p hp
    simp only [List.getElem?_cons_succ, List.getElem?_map,
      pageLoop_getElem] at hp
    rcases lt_or_ge k (-((-(server params).total).fdiv params.length) - 1).toNat
      with hk | hk
    · rw [if_pos hk] at hp
      simp only [Option.map_some', Option.some.injEq] at hp
      rw [← hp]
    · rw [if_neg (by omega)] at hp
      exact Option.noConfusion hp
  have hall : params.offset = 0 → ∀ (k : Nat) (p : Params),
      (params :: (pageLoop server params
          (-((-(server params).total).fdiv params.length) - 1).toNat).map
            Prod.fst)[k]? = some p →
        p.offset = params.length * (k : Int) := by
    intro h0 k p hp
    cases k with
    | zero =>
      simp only [List.getElem?_cons_zero, Option.some.injEq] at hp
      rw [← hp, h0]
      simp
    | succ k =>
      have := hsucc k p hp
      rw [this]
      push_cast
      ring
  simp only [Trace.requests]
  refine ⟨by simp, hsucc, hall, ?_⟩
  intro h0 hpos j k pj pk hjk hj hk
  rw [hall h0 j pj hj, hall h0 k pk hk]
  have hcast : (j : Int) < (k : Int) := by exact_mod_cast hjk
  exact mul_lt_mul_of_pos_left hcast (by exact_mod_cast hpos)

/-- C3 witness: at the default offset 0 with page length 5 and total 10, the
two requests carry offsets 0 * 5 = 0 and 1 * 5 = 5, in increasing order. -/
theorem C3_amended_witness :
    (Trace.requests
      { firstParams := ⟨0, 5⟩, firstText := "B"
      , later := [(⟨5, 5⟩, "B")], warnings := [], nRequests := 2 })[0]?
      = some (⟨0, 5⟩ : Params) ∧
    ((⟨5, 5⟩ : Params).offset = (⟨0, 5⟩ : Params).length * ((0 : Nat) : Int) + 5 ∧
      (⟨0, 5⟩ : Params).offset < (⟨5, 5⟩ : Params).offset) := by
  have h := C3_amended c3Server ⟨0, 5⟩
    { firstParams := ⟨0, 5⟩, firstText := "B"
    , later := [(⟨5, 5⟩, "B")], warnings := [], nRequests := 2 } rfl
  refine ⟨h.1, by decide, ?_⟩
  exact h.2.2.2 rfl (by decide) 0 1 ⟨0, 5⟩ ⟨5, 5⟩ (by decide) h.1 (by rfl)

/-- The accumulator form of String.intercalate matches the loop writes. -/
theorem intercalate_go_loopWrites (l : List String) :
    ∀ acc : String, String.intercalate.go acc ",\n" l = acc ++ loopWrites l := by
  induction l with
  | nil =>
    intro acc
    simp [String.intercalate.go, loopWrites]
  | cons b bs ih =>
    intro acc
    simp only [String.intercalate.go, loopWrites]
    rw [ih]
    simp [String.append_assoc]

/-- The first page followed by the loop writes is the comma-newline
intercalation of all pages. -/
theorem first_loopWrites_intercalate (a : String) (l : List String) :
    a ++ loopWrites l = String.intercalate ",\n" (a :: l) := by
  simp only [String.intercalate]
  rw [intercalate_go_loopWrites]

/-- A nonempty chain of valid JSON values joined by the loop writes is a
valid JSON array body with one element per value. -/
theorem isJsonElems_chain : ∀ (l : List String) (a : String), IsJsonValue a →
    (∀ s ∈ l, IsJsonValue s) →
    IsJsonElems (a ++ loopWrites l) (l.length + 1) := by
  intro l
  induction l with
  | nil =>
    intro a ha _
    simpa [loopWrites] using IsJsonElems.single a ha
  | cons b bs ih =>
    intro a ha hl
    have hb : IsJsonValue b := hl b (List.mem_cons_self b bs)
    have hbs : ∀ s ∈ bs, IsJsonValue s := fun s hs => hl s (List.mem_cons_of_mem b hs)
    have hrest := ih b hb hbs
    have hws : JsonWS "\n" := by
      unfold JsonWS
      decide
    have hcons := IsJsonElems.cons a "\n" (b ++ loopWrites bs) (bs.length + 1)
      ha hws hrest (by omega)
    have heq : a ++ "," ++ "\n" ++ (b ++ loopWrites bs)
        = a ++ loopWrites (b :: bs) := by
      simp only [loopWrites]
      rw [show (",\n" : String) = "," ++ "\n" from rfl]
      simp [String.append_assoc]
    rw [heq] at hcons
    simpa using hcons

/-- Evaluation of the aggregates call on a successful fetch: the file holds
the opening bracket, the page writes and the closing bracket, and the
compression step runs. -/
theorem agg_fileContent_ok (server : Params → Response) (params : Params)
    (t : Trace) (h : getAllValues server params = Except.ok t) :
    get_fuel_receipts_costs_aggregates server params =
      { fileContent := "[" ++ t.firstText ++ loopWrites (t.later.map Prod.snd) ++ "]"
      , arrayClosed := true, gzipRan := true, error := none } := by
  unfold get_fuel_receipts_costs_aggregates
  rw [h]

/-- A JSON array body with zero elements is the empty string. -/
theorem isJsonElems_zero (s : String) (h : IsJsonElems s 0) : s = "" := by
  cases h
  rfl

/-- C4 counterexample: a successful fetch with total 0 has computed
n_requests = 0, yet the aggregate file holds one page element, so it parses
as a JSON array of 1 element, not of n_requests = 0 elements. -/
theorem C4_counterexample :
    getAllValues c4Server { offset := 0, length := 5 } = Except.ok
      { firstParams := ⟨0, 5⟩, firstText := "\x7b\x7d", later := []
      , warnings := [], nRequests := 0 } ∧
    get_fuel_receipts_costs_aggregates c4Server { offset := 0, length := 5 } =
      { fileContent := "[\x7b\x7d]", arrayClosed := true, gzipRan := true
      , error := none } ∧
    IsJsonArrayText "[\x7b\x7d]" 1 ∧
    ¬ IsJsonArrayText "[\x7b\x7d]" 0 := by
  refine ⟨rfl, rfl, ?_, ?_⟩
  · refine ⟨"\x7b\x7d", IsJsonElems.single _ ?_, rfl⟩
    exact (show ("\x7b" ++ "" ++ "\x7d" : String) = "\x7b\x7d" from rfl) ▸
      IsJsonValue.obj "" IsJsonMembers.nil
  · rintro ⟨body, hel, heq⟩
    rw [isJsonElems_zero body hel] at heq
    exact absurd heq (by decide)

/-- C4 amended: for every successful fetch the aggregate file content is the
opening bracket, the page bodies verbatim in fetch order separated by
comma-newline, and the closing bracket; the number of page elements is
max(1, n_requests), which equals n_requests whenever total is at least 1 and
the page length is positive; and when every page body is a valid JSON object
the file parses as a JSON array of exactly that many elements. -/
theorem C4_amended (server : Params → Response) (params : Params) (t : Trace)
    (h : getAllValues server params = Except.ok t) :
    (get_fuel_receipts_costs_aggregates server params).fileContent =
      "[" ++ String.intercalate ",\n" t.pages ++ "]" ∧
    t.pages.length = max 1 t.nRequests.toNat ∧
    (1 ≤ params.length → 1 ≤ (server params).total →
      (t.pages.length : Int) = t.nRequests) ∧
    ((∀ p ∈ t.pages, IsJsonObjectText p) →
      IsJsonArrayText
        (get_fuel_receipts_costs_aggregates server params).fileContent
        t.pages.length) := by
  have hagg := agg_fileContent_ok server params t h
  have hcontent : (get_fuel_receipts_costs_aggregates server params).fileContent
      = "[" ++ (t.firstText ++ loopWrites (t.later.map Prod.snd)) ++ "]" := by
    rw [hagg]
    simp [String.append_assoc]
  have hpages : t.pages = t.firstText :: t.later.map Prod.snd := rfl
  have hinter : t.firstText ++ loopWrites (t.later.map Prod.snd)
      = String.intercalate ",\n" t.pages := by
    rw [hpages]
    exact first_loopWrites_intercalate _ _
  obtain ⟨hlen0, ws, htr⟩ := getAllValues_ok_inv server params t h
  have hplen : t.pages.length =
      (-((-(server params).total).fdiv params.length) - 1).toNat + 1 := by
    rw [htr]
    simp [Trace.pages, pageLoop_length]
  have hnreq : t.nRequests = -((-(server params).total).fdiv params.length) := by
    rw [htr]
  refine ⟨?_, ?_, ?_, ?_⟩
  · rw [hcontent, hinter]
  · rw [hplen, hnreq]
    omega
  · intro hL hT
    obtain ⟨h1, -, -⟩ :=
      ceil_formula_bounds (server params).total params.length (by omega) hT
    rw [hplen, hnreq]
    omega
  · intro hobj
    rw [hcontent]
    have hvals : ∀ p ∈ t.pages, IsJsonValue p := by
      intro p hp
      obtain ⟨body, hm, hpe⟩ := hobj p hp
      rw [hpe]
      exact IsJsonValue.obj body hm
    have hchain := isJsonElems_chain (t.later.map Prod.snd) t.firstText
      (hvals _ (by rw [hpages]; exact List.mem_cons_self _ _))
      (fun s hs => hvals s (by rw [hpages]; exact List.mem_cons_of_mem _ hs))
    refine ⟨t.firstText ++ loopWrites (t.later.map Prod.snd), ?_, rfl⟩
    have hlen2 : t.pages.length = (t.later.map Prod.snd).length + 1 := by
      rw [hpages]
      simp
    rw [hlen2]
    exact hchain

/-- C4 witness: the concrete two-page fetch of empty objects yields the
intercalated aggregate and a valid two-element JSON array. -/
theorem C4_amended_witness :
    (get_fuel_receipts_costs_aggregates c4wServer ⟨0, 5⟩).fileContent =
      "[" ++ String.intercalate ",\n" (Trace.pages c4wTrace) ++ "]" ∧
    IsJsonArrayText
      (get_fuel_receipts_costs_aggregates c4wServer ⟨0, 5⟩).fileContent
      (Trace.pages c4wTrace).length := by
  have h := C4_amended c4wServer ⟨0, 5⟩ c4wTrace rfl
  refine ⟨h.1, h.2.2.2 ?_⟩
  intro p hp
  have hobj : IsJsonObjectText "\x7b\x7d" := ⟨"", IsJsonMembers.nil, rfl⟩
  rcases List.mem_cons.mp hp with rfl | hp2
  · exact hobj
  · rcases List.mem_cons.mp hp2 with rfl | hp3
    · exact hobj
    · exact absurd hp3 (List.not_mem_nil _)

/-- The Python comparison v == 0 holds exactly for the integer zero among
the option value types. -/
theorem eqZero_iff (v : PyVal) : v.eqZero = true ↔ v = PyVal.pyint 0 := by
  cases v <;> simp [PyVal.eqZero]

/-- C7: the built parameter mapping keeps exactly those option entries whose
value is truthy or is the integer zero; hence offset = 0 is preserved while
None values and empty sequences are dropped.  The builder is a total
function: it never rejects any option combination. -/
theorem C7_param_filter (o : QueryOptions) :
    (∀ kv : String × PyVal, kv ∈ buildParamDict o ↔
      (kv ∈ paramEntries o ∧ (kv.2.truthy = true ∨ kv.2 = PyVal.pyint 0))) ∧
    (o.offset = 0 → ("offset", PyVal.pyint 0) ∈ buildParamDict o) ∧
    (∀ k : String, (k, PyVal.pynone) ∉ buildParamDict o) ∧
    (∀ k : String, (k, PyVal.pylist []) ∉ buildParamDict o) := by
  have hiff : ∀ kv : String × PyVal, kv ∈ buildParamDict o ↔
      (kv ∈ paramEntries o ∧ (kv.2.truthy = true ∨ kv.2 = PyVal.pyint 0)) := by
    intro kv
    unfold buildParamDict
    rw [List.mem_filter]
    simp [Bool.or_eq_true, eqZero_iff]
  refine ⟨hiff, ?_, ?_, ?_⟩
  · intro h0
    refine (hiff _).mpr ⟨?_, Or.inr rfl⟩
    simp [paramEntries, ← h0]
  · intro k hk
    rcases ((hiff _).mp hk).2 with h | h
    · simp [PyVal.truthy] at h
    · exact PyVal.noConfusion h
  · intro k hk
    rcases ((hiff _).mp hk).2 with h | h
    · simp [PyVal.truthy] at h
    · exact PyVal.noConfusion h

/-- C7 witness: with all defaults (offset 0), the offset entry is kept as
the integer zero, and the kept-iff characterization holds at the frequency
entry. -/
theorem C7_param_filter_witness :
    ("offset", PyVal.pyint 0) ∈ buildParamDict {} ∧
    (("frequency", PyVal.pystr "annual") ∈ buildParamDict {} ↔
      (("frequency", PyVal.pystr "annual") ∈ paramEntries {} ∧
        ((PyVal.pystr "annual").truthy = true ∨
          PyVal.pystr "annual" = PyVal.pyint 0))) :=
  ⟨(C7_param_filter {}).2.1 rfl, (C7_param_filter {}).1 _⟩

/-- Decoding the run-length pairs of a compression recovers the input. -/
theorem gzDecodePairs_gzCompress (bs : List Nat) :
    gzDecodePairs (gzCompress bs) = bs := by
  induction bs with
  | nil => rfl
  | cons b rest ih =>
    cases hc : gzCompress rest with
    | nil =>
      have hrest : rest = [] := by
        rw [hc] at ih
        simpa [gzDecodePairs] using ih.symm
      subst hrest
      simp [gzCompress, gzDecodePairs]
    | cons p tail =>
      obtain ⟨n, b2⟩ := p
      have hdec : List.replicate n b2 ++ gzDecodePairs tail = rest := by
        rw [hc] at ih
        simpa [gzDecodePairs] using ih
      by_cases hb : b2 = b
      · subst hb
        have hstep : gzCompress (b2 :: rest) = (n + 1, b2) :: tail := by
          unfold gzCompress
          rw [hc]
          simp
        rw [hstep]
        simp [gzDecodePairs, List.replicate_succ, hdec]
      · have hstep : gzCompress (b :: rest) = (1, b) :: (n, b2) :: tail := by
          unfold gzCompress
          rw [hc]
          simp [hb]
        rw [hstep]
        simp [gzDecodePairs, hdec]

/-- Decompressing a flattened pair stream decodes the pairs. -/
theorem gzDecompressBytes_gzFlatten (l : List (Nat × Nat)) :
    gzDecompressBytes (gzFlatten l) = gzDecodePairs l := by
  induction l with
  | nil => rfl
  | cons p tail ih =>
    obtain ⟨n, b⟩ := p
    simp only [gzFlatten, gzDecompressBytes, gzDecodePairs]
    rw [ih]

/-- The modelled codec is lossless. -/
theorem gz_roundtrip (bs : List Nat) :
    gzDecompressBytes (gzCompressBytes bs) = bs := by
  unfold gzCompressBytes
  rw [gzDecompressBytes_gzFlatten, gzDecodePairs_gzCompress]

/-- A path never equals itself with the compression suffix appended. -/
theorem ne_append_gz (p : String) : p ≠ p ++ ".gz" := by
  intro h
  have hlen := congrArg String.length h
  rw [String.length_append] at hlen
  have h3 : (".gz" : String).length = 3 := rfl
  omega

/-- C8: for every file that finalize succeeds on, the compressed sibling
(the original name with the compression suffix appended) decompresses
byte-for-byte to the pre-compression input, and with deletion enabled the
uncompressed path no longer exists afterwards. -/
theorem C8_gzip_roundtrip (fs : FileSys) (path : String) (data : List Nat)
    (hdata : fs path = some data) :
    ∃ fsOut : FileSys, gzip_file fs path true none = Except.ok fsOut ∧
      fsOut (path ++ ".gz") = some (gzCompressBytes data) ∧
      gzDecompressBytes (gzCompressBytes data) = data ∧
      fsOut path = none := by
  refine ⟨(FileSys.write fs (path ++ ".gz") (gzCompressBytes data)).remove path,
    ?_, ?_, gz_roundtrip data, ?_⟩
  · simp [gzip_file, hdata]
  · show (if (path ++ ".gz") = path then none
      else FileSys.write fs (path ++ ".gz") (gzCompressBytes data) (path ++ ".gz"))
      = some (gzCompressBytes data)
    rw [if_neg (Ne.symm (ne_append_gz path))]
    show (if (path ++ ".gz") = (path ++ ".gz") then some (gzCompressBytes data)
      else fs (path ++ ".gz")) = some (gzCompressBytes data)
    rw [if_pos rfl]
  · show (if path = path then none
      else FileSys.write fs (path ++ ".gz") (gzCompressBytes data) path) = none
    rw [if_pos rfl]

/-- C8 witness: finalizing the concrete file produces a sibling .gz whose
decompression is the original content, and removes the original. -/
theorem C8_gzip_roundtrip_witness :
    c8fs "out.json" = some [1, 2, 2, 3] ∧
    ∃ fsOut : FileSys, gzip_file c8fs "out.json" true none = Except.ok fsOut ∧
      fsOut ("out.json" ++ ".gz") = some (gzCompressBytes [1, 2, 2, 3]) ∧
      gzDecompressBytes (gzCompressBytes [1, 2, 2, 3]) = [1, 2, 2, 3] ∧
      fsOut "out.json" = none :=
  ⟨rfl, C8_gzip_roundtrip c8fs "out.json" [1, 2, 2, 3] rfl⟩

/-- C9: if an I/O error interrupts the streaming copy before it completes,
gzip_file raises without reaching the unlink statement, so the uncompressed
source file still holds its original content. -/
theorem C9_no_delete_on_error (fs : FileSys) (path : String) (del : Bool)
    (data : List Nat) (k : Nat) (hdata : fs path = some data)
    (hk : k < data.length) :
    ∃ fsErr : FileSys, gzip_file fs path del (some k) =
        Except.error (PyErr.ioError, fsErr) ∧ fsErr path = some data := by
  refine ⟨FileSys.write fs (path ++ ".gz") (gzCompressBytes (data.take k)),
    ?_, ?_⟩
  · simp only [gzip_file, hdata]
    rw [if_pos hk]
  · show (if path = path ++ ".gz" then some (gzCompressBytes (data.take k))
      else fs path) = some data
    rw [if_neg (ne_append_gz path), hdata]

/-- C9 witness: an I/O failure after one byte of the concrete three-byte
file leaves the source file in place with its content intact. -/
theorem C9_no_delete_on_error_witness :
    c9fs "data.json" = some [5, 5, 7] ∧ 1 < ([5, 5, 7] : List Nat).length ∧
    ∃ fsErr : FileSys, gzip_file c9fs "data.json" true (some 1) =
        Except.error (PyErr.ioError, fsErr) ∧ fsErr "data.json" = some [5, 5, 7] :=
  ⟨rfl, by decide,
    C9_no_delete_on_error c9fs "data.json" true [5, 5, 7] 1 rfl (by decide)⟩
